import Mathlib

/-!
Verification of the baisoft marketplace backend core.

This file gives a shallow embedding of the decision logic of the repository:
the chatbot search and intent pipeline (`backend/chatbot/ai_service.py`,
`backend/chatbot/views.py`), the role/business authorization rules
(`backend/businesses/models.py`, `backend/products/permissions.py`,
`backend/products/views.py`, `backend/businesses/views.py`) and the product
state machine (`backend/products/views.py`).  Python strings are modelled as
Lean strings over their character lists; Python regular-expression checks are
translated into equivalent decidable predicates on single-line ASCII text;
Python `list.sort(reverse=True, key=...)`, which is a stable sort, is modelled
by a stable descending insertion sort.
-/

namespace Baisoft

/-! ### Character and string helpers (Python `str` operations) -/

/-- Python `s.lower()`, character by character (ASCII inputs). -/
def lowerList (s : List Char) : List Char := s.map Char.toLower

/-- Python substring test `needle in hay`.  The empty needle matches. -/
def containsSeg : List Char → List Char → Bool
  | n, [] => n.isPrefixOf []
  | n, c :: t => n.isPrefixOf (c :: t) || containsSeg n t

/-- Worker for `splitWS`: accumulates the current word (reversed). -/
def splitWSAux (cur : List Char) : List Char → List (List Char)
  | [] => if cur.isEmpty then [] else [cur.reverse]
  | c :: rest =>
      if c.isWhitespace then
        if cur.isEmpty then splitWSAux [] rest
        else cur.reverse :: splitWSAux [] rest
      else splitWSAux (c :: cur) rest

/-- Python `s.split()`: split on whitespace runs, discarding empty pieces. -/
def splitWS (s : List Char) : List (List Char) := splitWSAux [] s

/-- Python whitespace join, `" ".join(words)`. -/
def joinSpace (ws : List (List Char)) : List Char := List.intercalate [' '] ws

/-- Python `s.strip()`. -/
def trimChars (s : List Char) : List Char :=
  ((s.dropWhile Char.isWhitespace).reverse.dropWhile Char.isWhitespace).reverse

/-- A character of the Python regex class `\w` (ASCII reading). -/
def isWordChar (c : Char) : Bool := c.isAlphanum || c == '_'

/-- Python `re.sub` of the class `[^\w\s]` by a space, per character. -/
def puncToSpace (c : Char) : Char :=
  if isWordChar c || c.isWhitespace then c else ' '

/-- Drop the first phrase of `phrases` (in list order) that is a leading
segment of `s`; at most one phrase is dropped (`break` in the source). -/
def stripLeadingPhrase : List (List Char) → List Char → List Char
  | [], s => s
  | p :: ps, s => if p.isPrefixOf s then s.drop p.length else stripLeadingPhrase ps s

/-! ### Data model -/

/-- The product dictionary built by the chatbot views:
`id`, `name`, `description`, `price`, `business` — with `price` already
rendered as a string and `business` the business display name. -/
structure ProductInfo where
  pid : Nat
  name : String
  description : String
  price : String
  business : String
deriving DecidableEq, Repr

/-- Product status choices (`products/models.py`). -/
inductive PStatus where
  | draft
  | pending_approval
  | approved
deriving DecidableEq, Repr

/-- A stored `Product` row: the fields the specified operations read or
write (`products/models.py`). -/
structure ProductRec where
  pid : Nat
  name : String
  description : String
  price : Int
  status : PStatus
  businessId : Nat
  created_by : Option Nat
  approved_by : Option Nat
  approved_at : Option Nat
deriving DecidableEq, Repr

/-- A stored `Business` row (`businesses/models.py`). -/
structure BusinessRec where
  bid : Nat
  name : String
  can_create_users : Bool
  can_assign_roles : Bool
  owner : Option Nat
deriving DecidableEq, Repr

/-- A stored `User` row together with the request-authentication flags
(`businesses/models.py`). -/
structure StoredUser where
  uid : Nat
  email : String
  first_name : String
  last_name : String
  role : String
  is_active : Bool
  is_authenticated : Bool
  is_superuser : Bool
  business : Option Nat
deriving DecidableEq, Repr

/-- Look a business up by primary key. -/
def findBusiness (bs : List BusinessRec) (bid : Nat) : Option BusinessRec :=
  bs.find? (fun b => b.bid == bid)

/-! ### `extract_search_terms` (ai_service.py) -/

/-- The `phrases_to_remove` list, in source order (duplicates kept). -/
def phrasesToRemove : List (List Char) :=
  [("do you have" : String).toList, ("is there" : String).toList,
   ("looking for" : String).toList, ("searching for" : String).toList,
   ("tell me about" : String).toList, ("information about" : String).toList,
   ("details about" : String).toList, ("show me" : String).toList,
   ("what about" : String).toList, ("how about" : String).toList,
   ("tell me more about" : String).toList, ("i want" : String).toList,
   ("i need" : String).toList, ("i\x27m looking for" : String).toList,
   ("can you show" : String).toList, ("can you tell" : String).toList,
   ("find" : String).toList, ("search" : String).toList,
   ("info on" : String).toList, ("details on" : String).toList,
   ("about" : String).toList, ("tell me about" : String).toList,
   ("tell me aboutthe" : String).toList, ("tell me abouta" : String).toList,
   ("tell me aboutan" : String).toList, ("aboutthe" : String).toList,
   ("abouta" : String).toList, ("aboutan" : String).toList]

/-- The stop-word set filtered out of extracted terms. -/
def stopWords : List (List Char) :=
  [("a" : String).toList, ("an" : String).toList, ("the" : String).toList,
   ("and" : String).toList, ("or" : String).toList, ("but" : String).toList,
   ("in" : String).toList, ("on" : String).toList, ("at" : String).toList,
   ("to" : String).toList, ("for" : String).toList, ("with" : String).toList,
   ("by" : String).toList, ("is" : String).toList, ("are" : String).toList]

/-- Model of `extract_search_terms(query)`: strip one leading question phrase, replace
punctuation by spaces, collapse whitespace, split, drop stop words; if nothing
remains, fall back to the whole cleaned string as the single term. -/
def extract_search_terms (q : List Char) : List (List Char) :=
  let c1 := stripLeadingPhrase phrasesToRemove q
  let c2 := joinSpace (splitWS (c1.map puncToSpace))
  let terms := (splitWS c2).filter (fun t => !t.isEmpty && !stopWords.contains t)
  if terms.isEmpty then [c2] else terms

/-! ### `search_products` (ai_service.py) -/

/-- Direct-mention test: the product name occurs inside the query or the
query occurs inside the product name (both lower-cased). -/
def directMatch (qLower : List Char) (p : ProductInfo) : Bool :=
  containsSeg (lowerList p.name.toList) qLower ||
  containsSeg qLower (lowerList p.name.toList)

/-- Fuzzy relevance score of one product: per extracted term of length > 1,
+10 when the term occurs in the name, else +3 when it occurs in the
description; plus 5 for each distinct whitespace word shared by the query and
the name (`set(query_words) & set(product_words)`).  The branch for an empty
term list mirrors the source but is unreachable because
`extract_search_terms` never returns an empty list. -/
def fuzzyScore (qLower : List Char) (p : ProductInfo) : Nat :=
  let nameL := lowerList p.name.toList
  let descL := lowerList p.description.toList
  let terms := extract_search_terms qLower
  let termScore :=
    if terms.isEmpty then
      (if containsSeg qLower nameL then 5
       else if containsSeg qLower descL then 2 else 0)
    else
      terms.foldl (fun acc t =>
        if !t.isEmpty && t.length > 1 then
          (if containsSeg t nameL then acc + 10
           else if containsSeg t descL then acc + 3 else acc)
        else acc) 0
  let shared :=
    ((splitWS qLower).dedup.filter (fun w => (splitWS nameL).contains w)).length
  termScore + 5 * shared

/-- The direct-mention bucket: every directly matching product scored 100, in
original order. -/
def directBucket (qLower : List Char) (ps : List ProductInfo) :
    List (Nat × ProductInfo) :=
  ps.filterMap (fun p => if directMatch qLower p then some (100, p) else none)

/-- The fuzzy bucket: every positively scored product with its score, in
original order. -/
def fuzzyBucket (qLower : List Char) (ps : List ProductInfo) :
    List (Nat × ProductInfo) :=
  ps.filterMap (fun p =>
    let s := fuzzyScore qLower p
    if 0 < s then some (s, p) else none)

/-- Stable descending insert: the new element goes after every element with a
score not below its own, matching Python stable sort with `reverse=True`. -/
def insertDesc {α : Type} (x : Nat × α) : List (Nat × α) → List (Nat × α)
  | [] => [x]
  | y :: ys => if x.1 ≥ y.1 then x :: y :: ys else y :: insertDesc x ys

/-- Stable descending sort by score, modelling
`list.sort(reverse=True, key=lambda x: x[0])`. -/
def sortDesc {α : Type} : List (Nat × α) → List (Nat × α)
  | [] => []
  | x :: xs => insertDesc x (sortDesc xs)

/-- The scored bucket `search_products` ranks: the direct bucket when it is
non-empty, else the fuzzy bucket; empty product list short-circuits. -/
def searchBucket (qLower : List Char) (ps : List ProductInfo) :
    List (Nat × ProductInfo) :=
  if ps.isEmpty then []
  else if (directBucket qLower ps).isEmpty then fuzzyBucket qLower ps
  else directBucket qLower ps

/-- Model of `search_products(query, products)`. -/
def search_products (q : String) (ps : List ProductInfo) : List ProductInfo :=
  (sortDesc (searchBucket (lowerList q.toList) ps)).map (fun x => x.2)

/-! ### Intent predicates (ai_service.py)

The regex checks are translated into decidable predicates equivalent to the
patterns on single-line text: a pattern of shape
`^(?:p1|p2|…)\s*(optional groups)\s*(.+?)$` holds exactly when the message
starts with one of the alternatives and at least one character follows, since
`\s*` and the optional groups may match the empty string and the lazy `(.+?)`
may absorb any remaining character including whitespace. -/

/-- Holds when `p.isPrefixOf m` with at least one character left after it. -/
def startsThenMore (p m : List Char) : Bool :=
  p.isPrefixOf m && p.length < m.length

/-- Some occurrence of `kw` inside `m` has at least one character after it
(unanchored `kw\s*(.+?)(?:\?|$)` patterns). -/
def occursThenMore : List Char → List Char → Bool
  | _, [] => false
  | kw, c :: t =>
      (kw.isPrefixOf (c :: t) && kw.length < (c :: t).length) || occursThenMore kw t

/-- Pattern `^(.+?)\s+(?:suffix)$`: the message ends in `suf`, preceded by at least
one whitespace character, preceded by at least one character. -/
def endsSpacedSuffix (suf m : List Char) : Bool :=
  suf.isSuffixOf m &&
    (let r := m.take (m.length - suf.length)
     r.length ≥ 2 &&
       (match r.getLast? with
        | some c => c.isWhitespace
        | none => false))

/-- Pattern `^(?:show|display|get)\s+(?:me\s+)?(?:info|…)?\s*(?:on|about)?\s*(.+?)$`:
the verb, one whitespace character, and at least one further character. -/
def verbThenArg (v m : List Char) : Bool :=
  v.isPrefixOf m &&
    (match m.drop v.length with
     | c :: rest => c.isWhitespace && !rest.isEmpty
     | [] => false)

/-- Model of `is_purchase_query`: any purchase keyword occurs as a substring. -/
def is_purchase_query (msg : String) : Bool :=
  let m := lowerList msg.toList
  [("buy" : String).toList, ("purchase" : String).toList,
   ("order" : String).toList, ("checkout" : String).toList,
   ("payment" : String).toList, ("shipping" : String).toList,
   ("delivery" : String).toList, ("cart" : String).toList].any
    (fun k => containsSeg k m)

/-- Model of `is_product_query`: any catalog phrase occurs as a substring. -/
def is_product_query (msg : String) : Bool :=
  let m := lowerList msg.toList
  [("product" : String).toList, ("products" : String).toList,
   ("have" : String).toList, ("available" : String).toList,
   ("stock" : String).toList, ("items" : String).toList,
   ("catalog" : String).toList, ("listing" : String).toList,
   ("what do you" : String).toList, ("show me" : String).toList,
   ("list" : String).toList, ("all products" : String).toList,
   ("what products" : String).toList].any
    (fun k => containsSeg k m)

/-- Model of `is_specific_product_query`: any of the five anchored patterns. -/
def is_specific_product_query (msg : String) : Bool :=
  let m := lowerList msg.toList
  -- ^(?:tell me about|what about|how about|info(?:rmation)? on|details? on|about)\s*(.+?)$
  ([("tell me about" : String).toList, ("what about" : String).toList,
    ("how about" : String).toList, ("info on" : String).toList,
    ("information on" : String).toList, ("detail on" : String).toList,
    ("details on" : String).toList, ("about" : String).toList].any
      (fun p => startsThenMore p m)) ||
  -- ^(?:do you have|is there)\s*(?:a|an)?\s*(.+?)(?:\?|$)
  ([("do you have" : String).toList, ("is there" : String).toList].any
      (fun p => startsThenMore p m)) ||
  -- ^(?:i want|i need|i\x27m looking for)\s*(?:the|a|an)?\s*(.+?)$
  ([("i want" : String).toList, ("i need" : String).toList,
    ("i\x27m looking for" : String).toList].any
      (fun p => startsThenMore p m)) ||
  -- ^(.+?)\s+(?:info|information|details)$
  ([("info" : String).toList, ("information" : String).toList,
    ("details" : String).toList].any
      (fun s => endsSpacedSuffix s m)) ||
  -- ^(?:show|display|get)\s+(?:me\s+)?(?:info|information|details)?\s*(?:on|about)?\s*(.+?)$
  ([("show" : String).toList, ("display" : String).toList,
    ("get" : String).toList].any
      (fun v => verbThenArg v m))

/-- Model of `is_product_search`: three unanchored keyword patterns plus the
catch-all `^(.+?)(?:\?)?$`, which matches every non-empty message. -/
def is_product_search (msg : String) : Bool :=
  let m := lowerList msg.toList
  ([("do you have" : String).toList, ("is there" : String).toList,
    ("looking for" : String).toList, ("search for" : String).toList,
    ("searching for" : String).toList, ("find" : String).toList].any
      (fun k => occursThenMore k m)) ||
  ([("what about" : String).toList, ("how about" : String).toList,
    ("tell me more about" : String).toList].any
      (fun k => occursThenMore k m)) ||
  ([("i want" : String).toList, ("i need" : String).toList,
    ("i\x27m looking for" : String).toList].any
      (fun k => occursThenMore k m)) ||
  !m.isEmpty

/-! ### `find_direct_product_match` (ai_service.py) -/

/-- The prefix list of `find_direct_product_match`, in source order. -/
def directPrefixes : List (List Char) :=
  [("tell me about" : String).toList, ("tell me aboutthe" : String).toList,
   ("tell me abouta" : String).toList, ("tell me aboutan" : String).toList,
   ("what about" : String).toList, ("how about" : String).toList,
   ("info on" : String).toList, ("details on" : String).toList,
   ("about" : String).toList, ("tell me about" : String).toList,
   ("tell me about " : String).toList, ("about " : String).toList,
   ("aboutthe" : String).toList, ("abouta" : String).toList,
   ("aboutan" : String).toList]

/-- One pass of the leading/trailing common-word removal loop: drop
`word` plus a space from the front, else a space plus `word` from the back. -/
def chopWord (s w : List Char) : List Char :=
  if (w ++ [' ']).isPrefixOf s then s.drop (w.length + 1)
  else if ([' '] ++ w).isSuffixOf s then s.take (s.length - (w.length + 1))
  else s

/-- The full common-word loop over the, a, an, is, are, was, were. -/
def commonWordChop (s : List Char) : List Char :=
  [("the" : String).toList, ("a" : String).toList, ("an" : String).toList,
   ("is" : String).toList, ("are" : String).toList, ("was" : String).toList,
   ("were" : String).toList].foldl chopWord s

/-- Model of `find_direct_product_match(query, products)`: strip a question prefix and
stray articles, then return the first product whose name equals, contains, or
is contained in the cleaned query. -/
def find_direct_product_match (msg : String) (ps : List ProductInfo) :
    Option ProductInfo :=
  if ps.isEmpty then none
  else
    let cq := trimChars (commonWordChop
      (stripLeadingPhrase directPrefixes (lowerList msg.toList)))
    ps.find? (fun p =>
      let nl := lowerList p.name.toList
      cq == nl || containsSeg cq nl || containsSeg nl cq)

/-! ### The two dispatch orders (get_ai_response / handle_local_product_query) -/

/-- Which handler a message is routed to. -/
inductive Intent where
  | purchase
  | specificProduct
  | productListing
  | general
  | directMention
deriving DecidableEq, Repr

/-- Dispatch order of `get_ai_response` when a remote model is configured:
purchase keywords first, then search/specific patterns, then catalog
keywords, else the remote general path. -/
def remoteIntent (msg : String) : Intent :=
  if is_purchase_query msg then .purchase
  else if is_product_search msg || is_specific_product_query msg then .specificProduct
  else if is_product_query msg then .productListing
  else .general

/-- Dispatch order of `handle_local_product_query`: direct product mention
first, then specific/search patterns, then purchase keywords, else the
listing fallback. -/
def localIntent (msg : String) (ps : List ProductInfo) : Intent :=
  if (find_direct_product_match msg ps).isSome then .directMention
  else if is_specific_product_query msg || is_product_search msg then .specificProduct
  else if is_purchase_query msg then .purchase
  else .productListing

/-! ### Response generators (ai_service.py) -/

/-- Python slicing `s[:n]`. -/
def strTake (s : String) (n : Nat) : String := String.mk (s.toList.take n)

/-- Model of `generate_detailed_product_response(products, original_query)`: `none`
mirrors the source returning `None` on an empty list (never reached from
`handle_local_product_query`). -/
def generate_detailed_product_response (products : List ProductInfo) : Option String :=
  match products with
  | [] => none
  | [p] =>
      some ("**✨ " ++ p.name ++ "**\n\n" ++
        "**💰 Price:** $" ++ p.price ++ "\n" ++
        "**🏪 Sold by:** " ++ p.business ++ "\n" ++
        "**📝 Description:**\n" ++ p.description ++ "\n\n" ++
        "💡 **Would you like to know more about this product or perhaps buy it?**")
  | ps =>
      let header := "🔍 **I found " ++ toString ps.length ++
        " products matching your search:**\n\n"
      let body := (ps.take 5).enum.foldl (fun acc x =>
        acc ++ "**" ++ toString (x.1 + 1) ++ ". " ++ x.2.name ++ "**\n" ++
        "   💰 $" ++ x.2.price ++ " | 🏪 " ++ x.2.business ++ "\n" ++
        "   📝 " ++ strTake x.2.description 100 ++ "...\n\n") ""
      let more :=
        if ps.length > 5 then
          "*...and " ++ toString (ps.length - 5) ++ " more matches.*\n\n"
        else ""
      some (header ++ body ++ more ++
        "**Which one would you like to know more about?**")

/-- Model of `generate_product_listing_response(products)`. -/
def generate_product_listing_response (products : List ProductInfo) : String :=
  if products.isEmpty then
    " I\x27m sorry, but there are currently no products available in the marketplace. Please check back later!"
  else
    " **Here are all the products available in our marketplace:**\n\n" ++
    products.enum.foldl (fun acc x =>
      acc ++ "**" ++ toString (x.1 + 1) ++ ". " ++ x.2.name ++ "**\n" ++
      " Price: $" ++ x.2.price ++ "\n" ++
      " Description: " ++ strTake x.2.description 150 ++ "...\n" ++
      " Sold by: " ++ x.2.business ++ "\n\n") "" ++
    "✨ **To see details about a specific product, just ask!** (e.g., \x27Tell me about maize\x27 or \x27Show me beans\x27)"

/-- Model of `generate_purchase_specific_product_response(product, user)`. -/
def generate_purchase_specific_product_response (p : ProductInfo)
    (userAuthenticated : Bool) : String :=
  "** Ready to buy " ++ p.name ++ "?**\n\n" ++
  "**Product Details:**\n" ++
  " Price: $" ++ p.price ++ "\n" ++
  " Sold by: " ++ p.business ++ "\n\n" ++
  "**To purchase this product:**\n" ++
  "1. Go to the product page\n" ++
  "2. Click \x27Add to Cart\x27 or \x27Buy Now\x27\n" ++
  "3. Follow the checkout process\n\n" ++
  (if userAuthenticated then ""
   else " **Note:** You\x27ll need to log in to complete your purchase.\n")

/-- Model of `generate_general_purchase_response(products, user)`. -/
def generate_general_purchase_response (products : List ProductInfo) : String :=
  "** Ready to Make a Purchase?**\n\n" ++
  (if products.isEmpty then ""
   else
     "We have **" ++ toString products.length ++ " products** available!\n\n" ++
     "**Popular items:**\n" ++
     (products.take 3).foldl (fun acc p =>
       acc ++ "• " ++ p.name ++ " - $" ++ p.price ++ "\n") "" ++
     "\n") ++
  "**To buy a product:**\n" ++
  "• Browse our catalog\n" ++
  "• Ask me about specific products\n" ++
  "• Click \x27Add to Cart\x27 on any product\n"

/-- Model of `handle_purchase_query(query, products, user)`: the first product whose
lower-cased name occurs in the query gets the specific response. -/
def handle_purchase_query (q : String) (products : List ProductInfo)
    (userAuthenticated : Bool) : String :=
  let ql := lowerList q.toList
  match products.find? (fun p => containsSeg (lowerList p.name.toList) ql) with
  | some p => generate_purchase_specific_product_response p userAuthenticated
  | none => generate_general_purchase_response products

/-- The apology shown when a search finds nothing; its search term is taken
from the raw (uncased) message, `"that"` being dead code since
`extract_search_terms` never returns an empty list. -/
def noMatchReply (msg : String) (products : List ProductInfo) : String :=
  let term := match extract_search_terms msg.toList with
    | [] => "that"
    | t :: _ => String.mk t
  "🔍 I couldn\x27t find any products matching \x27" ++ term ++ "\x27.\n\n" ++
    generate_product_listing_response products

/-- Model of `handle_local_product_query(user_message, products, user)` over the
prepared product dictionaries. -/
def handle_local_product_query (msg : String) (products : List ProductInfo)
    (userAuthenticated : Bool) : String :=
  match find_direct_product_match msg products with
  | some p => (generate_detailed_product_response [p]).getD ""
  | none =>
      if is_specific_product_query msg || is_product_search msg then
        match search_products msg products with
        | [] => noMatchReply msg products
        | ms => (generate_detailed_product_response ms).getD ""
      else if is_purchase_query msg then
        handle_purchase_query msg products userAuthenticated
      else generate_product_listing_response products

/-! ### Chat endpoint product context (chatbot/views.py) -/

/-- The queryset built by `chat_query`: approved products, all of them for a
superuser, the business of the caller for a member, none for a business-less
caller (`business_id` is a positive key, so its truthiness test is the
`Option` match). -/
def contextProducts (u : StoredUser) (allP : List ProductRec) : List ProductRec :=
  let approved := allP.filter (fun p => p.status == PStatus.approved)
  if u.is_superuser then approved
  else match u.business with
    | some b => approved.filter (fun p => p.businessId == b)
    | none => []

/-- The dictionary `get_ai_response`/`handle_local_product_query` build per
product (`business` resolved to the business display name). -/
def toInfo (bs : List BusinessRec) (p : ProductRec) : ProductInfo :=
  { pid := p.pid, name := p.name, description := p.description,
    price := toString p.price,
    business := match findBusiness bs p.businessId with
      | some b => b.name
      | none => "" }

/-- The local chatbot reply as produced by `chat_query` for its caller. -/
def chatLocalReply (bs : List BusinessRec) (u : StoredUser)
    (allP : List ProductRec) (msg : String) : String :=
  handle_local_product_query msg ((contextProducts u allP).map (toInfo bs))
    u.is_authenticated

/-! ### Role permissions (businesses/models.py `User.has_permission`) -/

/-- Model of `User.has_permission(permission)`: membership in the fixed role table;
unknown roles yield the empty list.  No superuser test appears here. -/
def has_permission (role : String) (perm : String) : Bool :=
  let perms : List String :=
    if role == "admin" then
      ["create_product", "edit_product", "approve_product", "delete_product", "view_all"]
    else if role == "editor" then ["create_product", "edit_product", "view_all"]
    else if role == "approver" then ["approve_product", "view_all"]
    else if role == "viewer" then ["view_all"]
    else []
  perms.contains perm

/-- The DRF view actions of `ProductViewSet` that reach a permission gate. -/
inductive ViewAction where
  | create
  | update
  | partialUpdate
  | destroy
  | approveAction
  | submitAction
  | retrieve
deriving DecidableEq, Repr

/-- Model of `ProductPermission.has_permission(request, view)`: authentication, a
superuser bypass, then the role table per action; unmatched actions pass. -/
def productPermissionCheck (u : StoredUser) (a : ViewAction) : Bool :=
  if !u.is_authenticated then false
  else if u.is_superuser then true
  else match a with
    | .create => has_permission u.role "create_product"
    | .update | .partialUpdate => has_permission u.role "edit_product"
    | .destroy => has_permission u.role "delete_product"
    | .approveAction => has_permission u.role "approve_product"
    | .submitAction => has_permission u.role "edit_product"
    | .retrieve => true

/-- The in-view role check each handler performs itself
(`perform_create`, `perform_update`, `perform_destroy`, `approve`,
`submit_for_approval`); it calls `User.has_permission` directly, with no
superuser bypass.  `retrieve` has no such check. -/
def performGate (u : StoredUser) (a : ViewAction) : Bool :=
  match a with
  | .create => has_permission u.role "create_product"
  | .update | .partialUpdate => has_permission u.role "edit_product"
  | .destroy => has_permission u.role "delete_product"
  | .approveAction => has_permission u.role "approve_product"
  | .submitAction => has_permission u.role "edit_product"
  | .retrieve => true

/-- The action-level authorization a request must clear end to end: the DRF
permission class and the in-view check. -/
def effectiveActionAllowed (u : StoredUser) (a : ViewAction) : Bool :=
  productPermissionCheck u a && performGate u a

/-! ### Object-level authorization (products/permissions.py, views.py) -/

/-- Model of `ProductPermission.has_object_permission`: superusers pass; everyone else
only for products of their own associated business. -/
def has_object_permission (u : StoredUser) (p : ProductRec) : Bool :=
  if !u.is_authenticated then false
  else if u.is_superuser then true
  else u.business == some p.businessId

/-- Model of `ProductViewSet.get_queryset` membership for an authenticated request
(non-public path): superusers see all, others products of businesses they
own or belong to. -/
def querysetContains (bs : List BusinessRec) (u : StoredUser)
    (p : ProductRec) : Bool :=
  if !u.is_authenticated then false
  else if u.is_superuser then true
  else
    (match findBusiness bs p.businessId with
     | some b => b.owner == some u.uid
     | none => false) || u.business == some p.businessId

/-- A detail operation (retrieve, update, delete, approve,
submit_for_approval) reaches its handler only if `get_object` finds the
product in the queryset and the object permission passes. -/
def detailOpAllowed (bs : List BusinessRec) (u : StoredUser)
    (p : ProductRec) : Bool :=
  querysetContains bs u p && has_object_permission u p

/-! ### Product state machine (products/views.py) -/

/-- Failure responses of the `approve` endpoint, in source order. -/
inductive ApproveError where
  | permissionDenied
  | alreadyApproved
  | onlyPendingCanBeApproved
deriving DecidableEq, Repr

/-- Failure responses of the `submit_for_approval` endpoint. -/
inductive SubmitError where
  | permissionDenied
  | onlyDraftCanBeSubmitted
deriving DecidableEq, Repr

/-- Model of `ProductViewSet.approve`: permission, the dedicated already-approved
rejection, the generic pending-only rejection, then the transition with its
audit fields. -/
def approveProduct (actor : StoredUser) (now : Nat) (p : ProductRec) :
    Except ApproveError ProductRec :=
  if !has_permission actor.role "approve_product" then .error .permissionDenied
  else if p.status == PStatus.approved then .error .alreadyApproved
  else if p.status != PStatus.pending_approval then .error .onlyPendingCanBeApproved
  else .ok { p with status := PStatus.approved,
                    approved_by := some actor.uid,
                    approved_at := some now }

/-- Model of `ProductViewSet.submit_for_approval`. -/
def submitForApprovalOp (actor : StoredUser) (p : ProductRec) :
    Except SubmitError ProductRec :=
  if !has_permission actor.role "edit_product" then .error .permissionDenied
  else if p.status != PStatus.draft then .error .onlyDraftCanBeSubmitted
  else .ok { p with status := PStatus.pending_approval }

/-! ### Product update (products/serializers.py, views.py) -/

/-- The writable fields of `ProductSerializer`: every field of `Meta.fields`
not listed in `Meta.read_only_fields`, hence `name`, `description`, `price`,
`status` and `business`. -/
structure ProductUpdateData where
  name : Option String := none
  description : Option String := none
  price : Option Int := none
  status : Option PStatus := none
  business : Option Nat := none
deriving DecidableEq, Repr

/-- Model of `ProductViewSet.perform_update`: serializer validation rejects a negative
price, the view rejects callers without edit permission, non-superusers have
the `business` key popped, and every remaining submitted field is stored. -/
def productPerformUpdate (actor : StoredUser) (p : ProductRec)
    (d : ProductUpdateData) : Except String ProductRec :=
  if d.price.any (fun pr => decide (pr < 0)) then
    .error "Price cannot be negative"
  else if !has_permission actor.role "edit_product" then
    .error "You don\x27t have permission to edit products"
  else
    let d := if actor.is_superuser then d else { d with business := none }
    .ok { p with
      name := d.name.getD p.name,
      description := d.description.getD p.description,
      price := d.price.getD p.price,
      status := d.status.getD p.status,
      businessId := d.business.getD p.businessId }

/-! ### User update (businesses/serializers.py, views.py) -/

/-- The writable fields of `UserSerializer` an update may submit (the
write-only `password` only feeds the password hash and is popped before the
field loop, so it is not modelled). -/
structure UserUpdateData where
  email : Option String := none
  first_name : Option String := none
  last_name : Option String := none
  role : Option String := none
  is_active : Option Bool := none
  business : Option Nat := none
deriving DecidableEq, Repr

/-- Model of `UserSerializer.update`: set each submitted field on the instance. -/
def applyUserData (t : StoredUser) (d : UserUpdateData) : StoredUser :=
  { t with
    email := d.email.getD t.email,
    first_name := d.first_name.getD t.first_name,
    last_name := d.last_name.getD t.last_name,
    role := d.role.getD t.role,
    is_active := d.is_active.getD t.is_active,
    business := match d.business with
      | some b => some b
      | none => t.business }

/-- Model of `UserViewSet.perform_update`: admins and superusers only; superusers save
as submitted; a non-superuser admin has a changed `role` silently popped when
their business is absent or has `can_assign_roles` off (an unset role value
is falsy, hence the empty-string test), and the save forces
`business = actor.business`. -/
def perform_user_update (bs : List BusinessRec) (actor target : StoredUser)
    (d : UserUpdateData) : Except String StoredUser :=
  if !actor.is_superuser && actor.role != "admin" then
    .error "You don\x27t have permission to update users"
  else if actor.is_superuser then .ok (applyUserData target d)
  else
    let d' := match d.role with
      | some r =>
          if r != "" && r != target.role &&
              (match actor.business with
               | some bid =>
                   match findBusiness bs bid with
                   | some b => !b.can_assign_roles
                   | none => true
               | none => true) then
            { d with role := none }
          else d
      | none => d
    .ok { applyUserData target d' with business := actor.business }

/-! ### Lemmas about the stable descending sort -/

theorem insertDesc_filter {α : Type} (x : Nat × α) (l : List (Nat × α)) (s : Nat) :
    (insertDesc x l).filter (fun y => y.1 == s) =
      if x.1 == s then x :: l.filter (fun y => y.1 == s)
      else l.filter (fun y => y.1 == s) := by
  induction l with
  | nil => simp [insertDesc, List.filter_cons]
  | cons y ys ih =>
    by_cases hxy : x.1 ≥ y.1
    · simp only [insertDesc, if_pos hxy, List.filter_cons]
    · have hlt : x.1 < y.1 := Nat.lt_of_not_le hxy
      simp only [insertDesc, if_neg hxy, List.filter_cons, ih]
      by_cases hx : x.1 = s
      · have hy : ¬ y.1 = s := by omega
        simp [hx, hy]
      · simp [hx]

theorem sortDesc_filter {α : Type} (l : List (Nat × α)) (s : Nat) :
    (sortDesc l).filter (fun y => y.1 == s) = l.filter (fun y => y.1 == s) := by
  induction l with
  | nil => rfl
  | cons x xs ih =>
    simp [sortDesc, insertDesc_filter, ih, List.filter_cons]

theorem insertDesc_perm {α : Type} (x : Nat × α) (l : List (Nat × α)) :
    List.Perm (insertDesc x l) (x :: l) := by
  induction l with
  | nil => exact List.Perm.refl _
  | cons y ys ih =>
    by_cases hxy : x.1 ≥ y.1
    · simp only [insertDesc, if_pos hxy]
      exact List.Perm.refl _
    · simp only [insertDesc, if_neg hxy]
      exact (ih.cons y).trans (List.Perm.swap x y ys)

theorem sortDesc_perm {α : Type} (l : List (Nat × α)) :
    List.Perm (sortDesc l) l := by
  induction l with
  | nil => exact List.Perm.refl _
  | cons x xs ih => exact (insertDesc_perm x (sortDesc xs)).trans (ih.cons x)

theorem mem_insertDesc {α : Type} {z x : Nat × α} {l : List (Nat × α)} :
    z ∈ insertDesc x l ↔ z = x ∨ z ∈ l :=
  (insertDesc_perm x l).mem_iff.trans (List.mem_cons)

theorem insertDesc_pairwise {α : Type} (x : Nat × α) {l : List (Nat × α)}
    (h : List.Pairwise (fun a b => b.1 ≤ a.1) l) :
    List.Pairwise (fun a b : Nat × α => b.1 ≤ a.1) (insertDesc x l) := by
  induction l with
  | nil => simp [insertDesc]
  | cons y ys ih =>
    rcases List.pairwise_cons.mp h with ⟨hy, hys⟩
    by_cases hxy : x.1 ≥ y.1
    · simp only [insertDesc, if_pos hxy]
      refine List.pairwise_cons.mpr ⟨?_, h⟩
      intro z hz
      rcases List.mem_cons.mp hz with rfl | hz'
      · exact hxy
      · exact le_trans (hy z hz') hxy
    · have hlt : x.1 < y.1 := Nat.lt_of_not_le hxy
      simp only [insertDesc, if_neg hxy]
      refine List.pairwise_cons.mpr ⟨?_, ih hys⟩
      intro z hz
      rcases mem_insertDesc.mp hz with rfl | hz'
      · exact Nat.le_of_lt hlt
      · exact hy z hz'

theorem sortDesc_pairwise {α : Type} (l : List (Nat × α)) :
    List.Pairwise (fun a b : Nat × α => b.1 ≤ a.1) (sortDesc l) := by
  induction l with
  | nil => exact List.Pairwise.nil
  | cons x xs ih => exact insertDesc_pairwise x ih

theorem sortDesc_of_const {α : Type} {l : List (Nat × α)} {k : Nat}
    (h : ∀ x ∈ l, x.1 = k) : sortDesc l = l := by
  induction l with
  | nil => rfl
  | cons x xs ih =>
    have hx : x.1 = k := h x (List.mem_cons_self x xs)
    have hrest : sortDesc xs = xs := ih (fun z hz => h z (List.mem_cons_of_mem x hz))
    simp only [sortDesc, hrest]
    cases xs with
    | nil => rfl
    | cons y ys =>
      have hy : y.1 = k := h y (List.mem_cons_of_mem x (List.mem_cons_self y ys))
      simp [insertDesc, hx, hy]

/-! ### Lemmas about the scored buckets -/

theorem directBucket_eq (q : List Char) (ps : List ProductInfo) :
    directBucket q ps =
      (ps.filter (fun p => directMatch q p)).map (fun p => ((100 : Nat), p)) := by
  induction ps with
  | nil => rfl
  | cons p ps ih =>
    by_cases hp : directMatch q p
    · simp only [directBucket] at ih ⊢
      simp [List.filterMap_cons, List.filter_cons, hp, ih]
    · simp only [directBucket] at ih ⊢
      simp [List.filterMap_cons, List.filter_cons, hp, ih]

theorem fuzzyBucket_map_snd (q : List Char) (ps : List ProductInfo) :
    (fuzzyBucket q ps).map (fun x => x.2) =
      ps.filter (fun p => decide (0 < fuzzyScore q p)) := by
  induction ps with
  | nil => rfl
  | cons p ps ih =>
    by_cases hp : 0 < fuzzyScore q p
    · simp only [fuzzyBucket] at ih ⊢
      simp [List.filterMap_cons, List.filter_cons, hp, ih]
    · simp only [fuzzyBucket] at ih ⊢
      simp [List.filterMap_cons, List.filter_cons, hp, ih]

theorem mem_fuzzyBucket {q : List Char} {ps : List ProductInfo}
    {x : Nat × ProductInfo} (hx : x ∈ fuzzyBucket q ps) :
    x.1 = fuzzyScore q x.2 ∧ 0 < x.1 := by
  rcases List.mem_filterMap.mp hx with ⟨p, _, hp⟩
  by_cases h : 0 < fuzzyScore q p
  · simp only [if_pos h] at hp
    cases hp
    exact ⟨rfl, h⟩
  · simp [if_neg h] at hp

theorem fuzzyBucket_filter_snd (q : List Char) (ps : List ProductInfo)
    {s : Nat} (hs : 0 < s) :
    ((fuzzyBucket q ps).filter (fun y => y.1 == s)).map (fun x => x.2) =
      ps.filter (fun p => fuzzyScore q p == s) := by
  induction ps with
  | nil => rfl
  | cons p ps ih =>
    by_cases hp : 0 < fuzzyScore q p
    · by_cases hps : fuzzyScore q p = s
      · simp only [fuzzyBucket] at ih ⊢
        simp [List.filterMap_cons, List.filter_cons, hp, hps, hs, ih]
      · simp only [fuzzyBucket] at ih ⊢
        simp [List.filterMap_cons, List.filter_cons, hp, hps, ih]
    · have hz : fuzzyScore q p = 0 := Nat.eq_zero_of_not_pos hp
      have hps : ¬ fuzzyScore q p = s := by omega
      simp only [fuzzyBucket] at ih ⊢
      simp [List.filterMap_cons, List.filter_cons, hp, hps, ih]

/-! ### Claim-side comparison definitions -/

/-- The fuzzy score exactly as claim C5 words it: the sum, over extracted
terms of length > 1, of +10 for a name hit, else +3 for a description hit,
and nothing else.  Stated from the claim for comparison with `fuzzyScore`. -/
def claimFuzzyScore (qLower : List Char) (p : ProductInfo) : Nat :=
  (extract_search_terms qLower).foldl (fun acc t =>
    if t.length > 1 then
      (if containsSeg t (lowerList p.name.toList) then acc + 10
       else if containsSeg t (lowerList p.description.toList) then acc + 3
       else acc)
    else acc) 0

/-- The word-overlap bonus term of `fuzzyScore`, named for the statements:
five points per distinct whitespace word common to query and name. -/
def sharedWordCount (qLower : List Char) (p : ProductInfo) : Nat :=
  ((splitWS qLower).dedup.filter
    (fun w => (splitWS (lowerList p.name.toList)).contains w)).length

/-- The five abstract actions of the claimed permission table. -/
inductive SpecAction where
  | createP
  | editP
  | deleteP
  | approveP
  | viewP
deriving DecidableEq, Repr

/-- The permission string the code uses for each claimed action (the
claimed view action is realized by the string `view_all`). -/
def specActionPerm : SpecAction → String
  | .createP => "create_product"
  | .editP => "edit_product"
  | .deleteP => "delete_product"
  | .approveP => "approve_product"
  | .viewP => "view_all"

/-- The fixed role table exactly as claim C2 words it.  Stated from the
claim for comparison with `has_permission`. -/
def claimTable (role : String) (a : SpecAction) : Bool :=
  if role == "admin" then true
  else if role == "editor" then
    (match a with | .createP | .editP | .viewP => true | _ => false)
  else if role == "approver" then
    (match a with | .approveP | .viewP => true | _ => false)
  else if role == "viewer" then
    (match a with | .viewP => true | _ => false)
  else false

/-! ### Concrete records used by the witnesses and counterexamples -/

def maizeInfo : ProductInfo :=
  ⟨1, "Maize", "Fresh maize grain", "2.50", "Acme Farms"⟩

def beansInfo : ProductInfo :=
  ⟨2, "Beans", "Fresh beans", "3.00", "Acme Farms"⟩

def tomatoxInfo : ProductInfo := ⟨3, "tomatox", "", "1.00", "B"⟩

def isCreamInfo : ProductInfo := ⟨4, "is cream", "tomato fresh cream", "1.50", "B"⟩

/-- Eleven products whose descriptions all hit the term `widget`. -/
def c5Products : List ProductInfo :=
  (List.range 11).map (fun i =>
    ⟨i, "item" ++ toString i, "widget holder", "1.00", "B"⟩)

def superuserViewer : StoredUser :=
  ⟨1, "root@example.com", "", "", "viewer", true, true, true, none⟩

def c3Businesses : List BusinessRec :=
  [⟨1, "Owned Business", true, true, some 7⟩,
   ⟨2, "Member Business", true, true, some 9⟩]

/-- Belongs to business 2 but owns business 1. -/
def c3User : StoredUser :=
  ⟨7, "owner@example.com", "", "", "admin", true, true, false, some 2⟩

/-- A product of business 1, the business `c3User` owns. -/
def c3Product : ProductRec :=
  ⟨10, "Widget", "d", 5, .draft, 1, some 7, none, none⟩

/-- A product of business 2, the business `c3User` belongs to. -/
def c3MemberProduct : ProductRec :=
  ⟨11, "Gadget", "d", 5, .draft, 2, some 9, none, none⟩

def c4Admin : StoredUser :=
  ⟨3, "approver@example.com", "", "", "admin", true, true, false, some 1⟩

def c4Pending : ProductRec :=
  ⟨12, "Pending Widget", "D", 3, .pending_approval, 1, some 2, none, none⟩

def c1Editor : StoredUser :=
  ⟨2, "editor@example.com", "", "", "editor", true, true, false, some 1⟩

def c1Draft : ProductRec :=
  ⟨14, "Widget", "Desc", 3, .draft, 1, some 2, none, none⟩

def c8Businesses : List BusinessRec :=
  [⟨1, "Locked Roles Ltd", true, false, some 5⟩]

def c8Admin : StoredUser :=
  ⟨5, "admin@locked.com", "", "", "admin", true, true, false, some 1⟩

def c8Target : StoredUser :=
  ⟨6, "member@locked.com", "", "", "viewer", true, true, false, some 1⟩

/-- An update changing role, email and business at once. -/
def c8Data : UserUpdateData :=
  { role := some "editor", email := some "renamed@locked.com",
    business := some 2 }

def c10User : StoredUser :=
  ⟨8, "nobiz@example.com", "", "", "viewer", true, true, false, none⟩

/-- An approved product of some other business. -/
def c10AllProducts : List ProductRec :=
  [⟨15, "Foreign Goods", "D", 3, .approved, 2, some 9, some 9, some 1⟩]

/-! ### Claim C1 -/

/-- C1 (code_bug evidence): a non-superuser editor with edit permission can
change `status` through a plain product update, because `status` is a
writable field of `ProductSerializer` and `perform_update` only strips
`business`: updating the draft `c1Draft` with `{status: approved}` succeeds
and stores `approved`, leaving `approved_by` unset. -/
theorem c1_status_mutable_by_editor :
    c1Editor.is_superuser = false ∧
    has_permission c1Editor.role "edit_product" = true ∧
    c1Draft.status = PStatus.draft ∧
    productPerformUpdate c1Editor c1Draft { status := some PStatus.approved } =
      .ok { c1Draft with status := PStatus.approved } ∧
    (c1Draft.status ≠ PStatus.approved) := by
  refine ⟨rfl, rfl, rfl, rfl, by decide⟩

/-! ### Claim C2 -/

/-- C2 (counterexample): an actor with the superuser flag but role `viewer`
is denied product creation, because `perform_create` consults
`User.has_permission`, which has no superuser bypass; so the effective check
is not true for every superuser regardless of role. -/
theorem c2_superuser_viewer_denied_create :
    superuserViewer.is_superuser = true ∧
    has_permission superuserViewer.role "create_product" = false ∧
    productPermissionCheck superuserViewer ViewAction.create = true ∧
    effectiveActionAllowed superuserViewer ViewAction.create = false := by
  refine ⟨rfl, rfl, rfl, rfl⟩

/-- C2 (amended): `User.has_permission` matches the claimed fixed table for
the four known roles (the view action being the string `view_all`) and denies
every permission to any other role; the superuser bypass lives only in the
DRF permission class, while the in-view checks call `has_permission`
directly, so the effective action-level authorization equals the bare
role-table gate for every authenticated actor, superuser or not. -/
theorem c2_role_table_and_superuser_gate :
    (∀ r, r ∈ (["admin", "editor", "approver", "viewer"] : List String) →
      ∀ a : SpecAction, has_permission r (specActionPerm a) = claimTable r a) ∧
    (∀ r, r ∉ (["admin", "editor", "approver", "viewer"] : List String) →
      ∀ perm, has_permission r perm = false) ∧
    (∀ u : StoredUser, u.is_authenticated = true →
      ∀ a : ViewAction, effectiveActionAllowed u a = performGate u a) := by
  refine ⟨?_, ?_, ?_⟩
  · intro r hr a
    fin_cases hr <;> cases a <;> rfl
  · intro r hr perm
    simp only [List.mem_cons, List.not_mem_nil, or_false, not_or] at hr
    obtain ⟨h1, h2, h3, h4⟩ := hr
    simp [has_permission, beq_iff_eq, h1, h2, h3, h4]
  · intro u hu a
    cases a <;> cases hsu : u.is_superuser <;>
      simp [effectiveActionAllowed, productPermissionCheck, performGate,
        hu, hsu, Bool.and_self]

/-- C2 amended witness at concrete inputs. -/
theorem c2_role_table_and_superuser_gate_witness :
    has_permission "editor" (specActionPerm SpecAction.approveP) =
      claimTable "editor" SpecAction.approveP ∧
    has_permission "manager" "create_product" = false ∧
    effectiveActionAllowed superuserViewer ViewAction.create =
      performGate superuserViewer ViewAction.create :=
  ⟨c2_role_table_and_superuser_gate.1 "editor" (by decide) SpecAction.approveP,
   c2_role_table_and_superuser_gate.2.1 "manager" (by decide) "create_product",
   c2_role_table_and_superuser_gate.2.2 superuserViewer rfl ViewAction.create⟩

/-! ### Claim C3 -/

/-- C3 (counterexample): `c3User` owns business 1, so the claimed
disjunction holds for `c3Product`, yet `has_object_permission` — and with it
every detail operation — denies access because the object check compares
only the associated business. -/
theorem c3_owner_without_membership_denied :
    c3User.is_superuser = false ∧
    (match findBusiness c3Businesses c3Product.businessId with
     | some b => b.owner
     | none => none) = some c3User.uid ∧
    querysetContains c3Businesses c3User c3Product = true ∧
    has_object_permission c3User c3Product = false ∧
    detailOpAllowed c3Businesses c3User c3Product = false := by
  refine ⟨rfl, rfl, rfl, rfl, rfl⟩

/-- C3 (amended): for an authenticated non-superuser the object-level check,
and with it the whole detail-operation gate, passes exactly when the product
belongs to the associated business of the actor; owning the business of the product
only grants queryset visibility, and the claimed disjunction survives as the
necessary (only-if) direction. -/
theorem c3_object_permission_is_membership (bs : List BusinessRec)
    (u : StoredUser) (p : ProductRec)
    (hauth : u.is_authenticated = true) (hsu : u.is_superuser = false) :
    (has_object_permission u p = true ↔ u.business = some p.businessId) ∧
    (detailOpAllowed bs u p = true ↔ u.business = some p.businessId) ∧
    (detailOpAllowed bs u p = true →
      (u.business = some p.businessId ∨
       (match findBusiness bs p.businessId with
        | some b => b.owner
        | none => none) = some u.uid)) := by
  have hobj : has_object_permission u p = (u.business == some p.businessId) := by
    simp [has_object_permission, hauth, hsu]
  have hdet : detailOpAllowed bs u p = true ↔ u.business = some p.businessId := by
    unfold detailOpAllowed querysetContains
    rw [hobj]
    cases hm : (u.business == some p.businessId) with
    | true => simp [hauth, hsu, beq_iff_eq] at hm ⊢; exact hm
    | false => simp [hauth, hsu, beq_iff_eq] at hm ⊢; exact hm
  refine ⟨by rw [hobj]; exact beq_iff_eq, hdet, fun h => Or.inl (hdet.mp h)⟩

/-- C3 amended witness: membership without ownership is enough. -/
theorem c3_object_permission_is_membership_witness :
    (has_object_permission c3User c3MemberProduct = true ↔
      c3User.business = some c3MemberProduct.businessId) ∧
    detailOpAllowed c3Businesses c3User c3MemberProduct = true :=
  ⟨(c3_object_permission_is_membership c3Businesses c3User c3MemberProduct
      rfl rfl).1,
   ((c3_object_permission_is_membership c3Businesses c3User c3MemberProduct
      rfl rfl).2.1).mpr rfl⟩

/-! ### Claim C4 -/

/-- C4: with the required permission, `submit_for_approval` succeeds exactly
from `draft` and moves the product to `pending_approval`; `approve` succeeds
exactly from `pending_approval`, setting status, approver and timestamp; and
approving an already approved product yields the dedicated already-approved
error, not the generic transition error. -/
theorem c4_state_machine (u : StoredUser) (now : Nat) (p : ProductRec) :
    (has_permission u.role "approve_product" = true →
      ((∃ p', approveProduct u now p = .ok p') ↔
        p.status = PStatus.pending_approval) ∧
      (p.status = PStatus.pending_approval →
        approveProduct u now p =
          .ok { p with status := PStatus.approved,
                       approved_by := some u.uid,
                       approved_at := some now }) ∧
      (p.status = PStatus.approved →
        approveProduct u now p = .error ApproveError.alreadyApproved)) ∧
    (has_permission u.role "edit_product" = true →
      ((∃ p', submitForApprovalOp u p = .ok p') ↔ p.status = PStatus.draft) ∧
      (p.status = PStatus.draft →
        submitForApprovalOp u p = .ok { p with status := PStatus.pending_approval })) := by
  constructor
  · intro happ
    cases hst : p.status <;> simp [approveProduct, happ, hst]
  · intro hedit
    cases hst : p.status <;> simp [submitForApprovalOp, hedit, hst]

/-- C4 witness: an admin approving a pending product. -/
theorem c4_state_machine_witness :
    has_permission c4Admin.role "approve_product" = true ∧
    approveProduct c4Admin 99 c4Pending =
      .ok { c4Pending with status := PStatus.approved,
                           approved_by := some c4Admin.uid,
                           approved_at := some 99 } :=
  ⟨rfl, ((c4_state_machine c4Admin 99 c4Pending).1 rfl).2.1 rfl⟩

/-! ### Claim C5 -/

/-- The list `extract_search_terms` returns always holds at least one term (possibly the
whole cleaned query). -/
theorem extract_terms_not_empty (q : List Char) :
    (extract_search_terms q).isEmpty = false := by
  simp only [extract_search_terms]
  split <;> simp_all

/-- The guard `term and len(term) > 1` equals plain `len(term) > 1`. -/
theorem termFold_eq (nameL descL : List Char) (ts : List (List Char))
    (acc : Nat) :
    ts.foldl (fun acc t =>
      if !t.isEmpty && t.length > 1 then
        (if containsSeg t nameL then acc + 10
         else if containsSeg t descL then acc + 3 else acc)
      else acc) acc =
    ts.foldl (fun acc t =>
      if t.length > 1 then
        (if containsSeg t nameL then acc + 10
         else if containsSeg t descL then acc + 3 else acc)
      else acc) acc := by
  induction ts generalizing acc with
  | nil => rfl
  | cons t ts ih =>
    simp only [List.foldl_cons]
    cases t with
    | nil => simpa using ih acc
    | cons c cs => simpa using ih _

/-- The implemented fuzzy score is the claimed per-term score plus the
word-overlap bonus. -/
theorem fuzzyScore_eq_claim (q : List Char) (p : ProductInfo) :
    fuzzyScore q p = claimFuzzyScore q p + 5 * sharedWordCount q p := by
  unfold fuzzyScore claimFuzzyScore sharedWordCount
  simp only [extract_terms_not_empty, Bool.false_eq_true, if_false]
  rw [termFold_eq]

/-- With an empty direct bucket, ranking works on the fuzzy bucket. -/
theorem searchBucket_of_no_direct {q : List Char} {ps : List ProductInfo}
    (hd : (directBucket q ps).isEmpty = true) :
    searchBucket q ps = fuzzyBucket q ps := by
  unfold searchBucket
  cases ps with
  | nil => simp [fuzzyBucket]
  | cons a l => simp [hd]

/-- C5 (amended): when no product is a direct match, the search output is
sorted descending by the implemented fuzzy score, keeps ties in original
list order, contains exactly the positively scored products with no
truncation, and that score is the claimed per-term sum plus five points per
distinct shared query/name word. -/
theorem c5_fuzzy_pipeline (q : String) (ps : List ProductInfo)
    (hd : (directBucket (lowerList q.toList) ps).isEmpty = true) :
    List.Pairwise (fun a b =>
      fuzzyScore (lowerList q.toList) b ≤ fuzzyScore (lowerList q.toList) a)
      (search_products q ps) ∧
    (∀ s, 0 < s →
      (search_products q ps).filter
          (fun p => fuzzyScore (lowerList q.toList) p == s) =
        ps.filter (fun p => fuzzyScore (lowerList q.toList) p == s)) ∧
    (∀ p ∈ search_products q ps, 0 < fuzzyScore (lowerList q.toList) p) ∧
    (search_products q ps).length =
      (ps.filter (fun p => decide (0 < fuzzyScore (lowerList q.toList) p))).length ∧
    (∀ p', fuzzyScore (lowerList q.toList) p' =
      claimFuzzyScore (lowerList q.toList) p' +
        5 * sharedWordCount (lowerList q.toList) p') := by
  have hsearch : search_products q ps =
      (sortDesc (fuzzyBucket (lowerList q.toList) ps)).map (fun x => x.2) := by
    unfold search_products
    rw [searchBucket_of_no_direct hd]
  have hmem : ∀ x ∈ sortDesc (fuzzyBucket (lowerList q.toList) ps),
      x.1 = fuzzyScore (lowerList q.toList) x.2 ∧ 0 < x.1 :=
    fun x hx => mem_fuzzyBucket ((sortDesc_perm _).subset hx)
  refine ⟨?_, ?_, ?_, ?_, fun p' => fuzzyScore_eq_claim _ p'⟩
  · rw [hsearch, List.pairwise_map]
    refine (sortDesc_pairwise _).imp_of_mem ?_
    intro a b ha hb hab
    rw [← (hmem a ha).1, ← (hmem b hb).1]
    exact hab
  · intro s hs
    rw [hsearch, List.filter_map]
    have hcongr : (sortDesc (fuzzyBucket (lowerList q.toList) ps)).filter
        ((fun p => fuzzyScore (lowerList q.toList) p == s) ∘ (fun x => x.2)) =
        (sortDesc (fuzzyBucket (lowerList q.toList) ps)).filter
          (fun y => y.1 == s) := by
      refine List.filter_congr ?_
      intro x hx
      simp only [Function.comp]
      rw [(hmem x hx).1]
    rw [hcongr, sortDesc_filter]
    exact fuzzyBucket_filter_snd _ _ hs
  · intro p hp
    rw [hsearch] at hp
    rcases List.mem_map.mp hp with ⟨x, hx, rfl⟩
    have h := hmem x hx
    rw [← h.1]
    exact h.2
  · rw [hsearch, List.length_map, (sortDesc_perm _).length_eq,
      ← fuzzyBucket_map_snd, List.length_map]

/-- C5 amended witness: a concrete stability instance on the fuzzy path. -/
theorem c5_fuzzy_pipeline_witness :
    (directBucket (lowerList ("is tomato fresh" : String).toList)
      [tomatoxInfo, isCreamInfo]).isEmpty = true ∧
    (search_products "is tomato fresh" [tomatoxInfo, isCreamInfo]).filter
        (fun p =>
          fuzzyScore (lowerList ("is tomato fresh" : String).toList) p == 11) =
      [tomatoxInfo, isCreamInfo].filter
        (fun p =>
          fuzzyScore (lowerList ("is tomato fresh" : String).toList) p == 11) :=
  ⟨by decide,
   (c5_fuzzy_pipeline "is tomato fresh" [tomatoxInfo, isCreamInfo]
      (by decide)).2.1 11 (by decide)⟩

/-- C5 (counterexample): eleven products all score positively for
`"zzz widget"` and all eleven are returned — the fuzzy path is not truncated
to ten; and for `"is tomato fresh"` the output order contradicts the claimed
per-term-only score, which ranks `tomatox` (10) above `is cream` (6): the
implemented word-overlap bonus lifts `is cream` to 11 and it is returned
first. -/
theorem c5_no_truncation_and_bonus_cex :
    (search_products "zzz widget" c5Products).length = 11 ∧
    claimFuzzyScore (lowerList ("is tomato fresh" : String).toList) tomatoxInfo = 10 ∧
    claimFuzzyScore (lowerList ("is tomato fresh" : String).toList) isCreamInfo = 6 ∧
    search_products "is tomato fresh" [tomatoxInfo, isCreamInfo] =
      [isCreamInfo, tomatoxInfo] := by
  refine ⟨by decide, by decide, by decide, by decide⟩

/-! ### Claim C6 -/

/-- C6: whenever some product matches directly, `search_products` returns
exactly the direct matches, all of them, in original order, each carrying
the fixed score 100 in the direct bucket, instead of any fuzzy result. -/
theorem c6_direct_match_priority (q : String) (ps : List ProductInfo)
    (hd : (directBucket (lowerList q.toList) ps).isEmpty = false) :
    directBucket (lowerList q.toList) ps =
      (ps.filter (fun p => directMatch (lowerList q.toList) p)).map
        (fun p => ((100 : Nat), p)) ∧
    search_products q ps =
      ps.filter (fun p => directMatch (lowerList q.toList) p) := by
  have heq := directBucket_eq (lowerList q.toList) ps
  refine ⟨heq, ?_⟩
  have hps : ps.isEmpty = false := by
    cases ps with
    | nil => simp [directBucket] at hd
    | cons a l => rfl
  have hconst : ∀ x ∈ directBucket (lowerList q.toList) ps, x.1 = 100 := by
    rw [heq]
    intro x hx
    rcases List.mem_map.mp hx with ⟨p, _, rfl⟩
    rfl
  unfold search_products searchBucket
  rw [hps, hd]
  simp only [Bool.false_eq_true, if_false]
  rw [sortDesc_of_const hconst, heq, List.map_map]
  simp [Function.comp]

/-- C6 witness: the Maize/Beans example of the specification. -/
theorem c6_direct_match_priority_witness :
    (directBucket (lowerList ("tell me about maize" : String).toList)
      [maizeInfo, beansInfo]).isEmpty = false ∧
    search_products "tell me about maize" [maizeInfo, beansInfo] = [maizeInfo] :=
  ⟨by decide,
   (c6_direct_match_priority "tell me about maize" [maizeInfo, beansInfo]
      (by decide)).2.trans (by decide)⟩

/-! ### Claim C9 -/

/-- C9: `search_products` is a pure function — identical runs give identical
output — produced by a stable score-descending sort of a bucket whose ties
keep their bucket order, the bucket itself being an order-preserving
selection (sublist) of the input product list; no ordering depends on hash
order or randomness. -/
theorem c9_search_deterministic_stable (q : String) (ps : List ProductInfo) :
    search_products q ps = search_products q ps ∧
    search_products q ps =
      (sortDesc (searchBucket (lowerList q.toList) ps)).map (fun x => x.2) ∧
    (∀ s, (sortDesc (searchBucket (lowerList q.toList) ps)).filter
        (fun y => y.1 == s) =
      (searchBucket (lowerList q.toList) ps).filter (fun y => y.1 == s)) ∧
    List.Sublist ((searchBucket (lowerList q.toList) ps).map (fun x => x.2)) ps := by
  refine ⟨rfl, rfl, fun s => sortDesc_filter _ s, ?_⟩
  unfold searchBucket
  by_cases hps : ps.isEmpty
  · cases ps with
    | nil => simp
    | cons a l => simp at hps
  · simp only [hps, Bool.false_eq_true, if_false]
    by_cases hd : (directBucket (lowerList q.toList) ps).isEmpty
    · simp only [hd, if_true]
      rw [fuzzyBucket_map_snd]
      exact List.filter_sublist _
    · simp only [hd, Bool.false_eq_true, if_false]
      rw [directBucket_eq, List.map_map]
      have hmapid : List.map (fun x : ProductInfo => x)
          (ps.filter (fun p => directMatch (lowerList q.toList) p)) =
          ps.filter (fun p => directMatch (lowerList q.toList) p) :=
        List.map_id _
      simp only [Function.comp_def]
      rw [hmapid]
      exact List.filter_sublist _

/-! ### Claim C7 -/

/-- C7 (counterexample): the two handling paths do not apply one identical
priority order.  The message `"i want to buy maize"` carries a purchase
keyword and also matches a specific-product pattern; the remote-configured
path classifies it as purchase (purchase checked first), while the local
path classifies it as a specific-product query (patterns checked before
purchase). -/
theorem c7_paths_disagree_cex :
    is_purchase_query "i want to buy maize" = true ∧
    is_specific_product_query "i want to buy maize" = true ∧
    remoteIntent "i want to buy maize" = Intent.purchase ∧
    localIntent "i want to buy maize" [] = Intent.specificProduct ∧
    remoteIntent "i want to buy maize" ≠ localIntent "i want to buy maize" [] := by
  refine ⟨rfl, rfl, rfl, rfl, by decide⟩

/-- C7 (amended): each path applies its own fixed short-circuit order — the
remote path checks purchase keywords first, then the search/specific
patterns; the local path checks a direct product mention, then the
specific/search patterns, and purchase keywords only afterwards — so a
message matching both purchase and specific patterns is handled as purchase
remotely and as a specific-product query locally; and
`"do you have tomatoes"` classifies as specific_product on both paths. -/
theorem c7_per_path_priority (msg : String) (ps : List ProductInfo)
    (h1 : find_direct_product_match msg ps = none)
    (h2 : (is_specific_product_query msg || is_product_search msg) = true)
    (h3 : is_purchase_query msg = true) :
    localIntent msg ps = Intent.specificProduct ∧
    remoteIntent msg = Intent.purchase ∧
    remoteIntent "do you have tomatoes" = Intent.specificProduct ∧
    localIntent "do you have tomatoes" [maizeInfo, beansInfo] =
      Intent.specificProduct := by
  refine ⟨?_, ?_, rfl, rfl⟩
  · unfold localIntent
    rw [h1]
    simp [h2]
  · unfold remoteIntent
    simp [h3]

/-- C7 amended witness. -/
theorem c7_per_path_priority_witness :
    localIntent "i want to buy maize" [] = Intent.specificProduct ∧
    remoteIntent "i want to buy maize" = Intent.purchase :=
  ⟨(c7_per_path_priority "i want to buy maize" [] rfl (by decide) (by decide)).1,
   (c7_per_path_priority "i want to buy maize" [] rfl (by decide) (by decide)).2.1⟩

/-! ### Claim C8 -/

/-- C8 (counterexample): under `can_assign_roles = false` the role change is
dropped and the update succeeds — but the claim that every other submitted
field is applied fails: the submitted `business` (2) is also overridden by
the forced save with the business of the admin (1). -/
theorem c8_submitted_business_dropped_cex :
    perform_user_update c8Businesses c8Admin c8Target c8Data =
      .ok { c8Target with email := "renamed@locked.com" } ∧
    c8Data.business = some 2 ∧
    ({ c8Target with email := "renamed@locked.com" } : StoredUser).business =
      some 1 ∧
    ({ c8Target with email := "renamed@locked.com" } : StoredUser).role =
      c8Target.role := by
  refine ⟨rfl, rfl, rfl, rfl⟩

/-- C8 (amended): a non-superuser admin of a business with
`can_assign_roles = false` who submits an update changing the role of the target
succeeds; the stored role is unchanged, the other submitted scalar fields
(email, names, active flag) are applied, and the stored business is forced
to the business of the admin itself regardless of any submitted value. -/
theorem c8_role_locked_update (bs : List BusinessRec) (actor target : StoredUser)
    (d : UserUpdateData) (bid : Nat) (b : BusinessRec) (r : String)
    (hsu : actor.is_superuser = false) (hrole : actor.role = "admin")
    (hb : actor.business = some bid) (hfind : findBusiness bs bid = some b)
    (hflag : b.can_assign_roles = false)
    (hr : d.role = some r) (hr0 : r ≠ "") (hrne : r ≠ target.role) :
    perform_user_update bs actor target d =
      .ok { target with
        email := d.email.getD target.email,
        first_name := d.first_name.getD target.first_name,
        last_name := d.last_name.getD target.last_name,
        is_active := d.is_active.getD target.is_active,
        business := actor.business } := by
  unfold perform_user_update applyUserData
  simp [hsu, hrole, hr, hb, hfind, hflag, hr0, hrne]

/-- C8 amended witness at the concrete records. -/
theorem c8_role_locked_update_witness :
    perform_user_update c8Businesses c8Admin c8Target c8Data =
      .ok { c8Target with
        email := c8Data.email.getD c8Target.email,
        first_name := c8Data.first_name.getD c8Target.first_name,
        last_name := c8Data.last_name.getD c8Target.last_name,
        is_active := c8Data.is_active.getD c8Target.is_active,
        business := c8Admin.business } :=
  c8_role_locked_update c8Businesses c8Admin c8Target c8Data 1
    ⟨1, "Locked Roles Ltd", true, false, some 5⟩ "editor"
    rfl rfl rfl rfl rfl rfl (by decide) (by decide)

/-! ### Claim C10 -/

/-- C10: an authenticated non-superuser without an associated business gets
an empty product context from the chat endpoint no matter what products any
business has, so the local reply is computed over zero products, and it
always carries the empty-catalog fallback message as its tail. -/
theorem c10_no_business_empty_context (bs : List BusinessRec) (u : StoredUser)
    (allP : List ProductRec) (msg : String)
    (hsu : u.is_superuser = false) (hb : u.business = none) :
    contextProducts u allP = [] ∧
    chatLocalReply bs u allP msg =
      handle_local_product_query msg [] u.is_authenticated ∧
    (∃ pre : String, handle_local_product_query msg [] u.is_authenticated =
      pre ++ generate_product_listing_response []) := by
  have hctx : contextProducts u allP = [] := by
    unfold contextProducts
    simp [hsu, hb]
  refine ⟨hctx, ?_, ?_⟩
  · unfold chatLocalReply
    rw [hctx]
    rfl
  · unfold handle_local_product_query
    have hfd : find_direct_product_match msg [] = none := rfl
    rw [hfd]
    by_cases hmsg : msg.toList = []
    · have hspec : is_specific_product_query msg = false := by
        unfold is_specific_product_query
        rw [hmsg]
        rfl
      have hsearch : is_product_search msg = false := by
        unfold is_product_search
        rw [hmsg]
        rfl
      have hpur : is_purchase_query msg = false := by
        unfold is_purchase_query
        rw [hmsg]
        rfl
      refine ⟨"", ?_⟩
      simp only [hspec, hsearch, hpur, Bool.or_self, Bool.false_eq_true,
        if_false]
      rfl
    · obtain ⟨c, cs, hcc⟩ := List.exists_cons_of_ne_nil hmsg
      have hps : is_product_search msg = true := by
        unfold is_product_search
        rw [hcc]
        simp [lowerList]
      have hsp : search_products msg [] = [] := rfl
      simp only [hps, Bool.or_true, if_true]
      rw [hsp]
      unfold noMatchReply
      exact ⟨_, rfl⟩

/-- C10 witness at concrete records. -/
theorem c10_no_business_empty_context_witness :
    contextProducts c10User c10AllProducts = [] ∧
    chatLocalReply c3Businesses c10User c10AllProducts "show me products" =
      handle_local_product_query "show me products" []
        c10User.is_authenticated :=
  ⟨(c10_no_business_empty_context c3Businesses c10User c10AllProducts
      "show me products" rfl rfl).1,
   (c10_no_business_empty_context c3Businesses c10User c10AllProducts
      "show me products" rfl rfl).2.1⟩

end Baisoft
